import Mathlib

/-!
Verification of the requirement-eligibility and conflict-resolution engine
of the vonbot repository, as a shallow embedding in Lean 4.

Python dicts are modelled as association lists over `String` keys
(`dget` is `dict.get`, `dictAppend` is `defaultdict(list)` append,
`dictSet` is plain key assignment); Python `int` is `Int`; DataFrames
are modelled as lists of rows.
-/

namespace Vonbot

/-- `d.get(k)` on an association list (first matching key wins, as in a
Python dict whose keys are unique). -/
def dget {β : Type} (d : List (String × β)) (k : String) : Option β :=
  match d with
  | [] => none
  | (k', v) :: rest => if k' = k then some v else dget rest k

/-- `defaultdict(list)`-style append: `d[k].append(v)`, creating the key at
the end if absent (Python dict insertion order). -/
def dictAppend {α : Type} (d : List (String × List α)) (k : String) (v : α) :
    List (String × List α) :=
  match d with
  | [] => [(k, [v])]
  | (k', vs) :: rest =>
      if k' = k then (k', vs ++ [v]) :: rest else (k', vs) :: dictAppend rest k v

/-- Plain dict assignment `d[k] = v`: overwrite in place, append if new. -/
def dictSet {α : Type} (d : List (String × α)) (k : String) (v : α) :
    List (String × α) :=
  match d with
  | [] => [(k, v)]
  | (k', v') :: rest =>
      if k' = k then (k', v) :: rest else (k', v') :: dictSet rest k v

/-- The keys of an association list, in order. -/
def dkeys {β : Type} (d : List (String × β)) : List String := d.map Prod.fst

/-- The structure returned by `load_prerequisites` in
`src/logic/prerequisites.py`: `chains` maps a chain id to its
`(order, course_code)` entries, `course_to_chains` maps a course code to the
`(chain_id, order)` pairs it participates in. -/
structure PrereqData where
  chains : List (String × List (Int × String))
  course_to_chains : List (String × List (String × Int))
deriving DecidableEq

/-- The `max_completed` loop shared by `get_chain_progress` and
`is_next_in_chain` (src/logic/prerequisites.py lines 191-194): the highest
order in `chain` whose course is in `student_courses_taken`, starting from 0. -/
def maxCompletedIn (chain : List (Int × String)) (taken : List String) : Int :=
  chain.foldl (fun m p => if p.2 ∈ taken then max m p.1 else m) 0

/-- `is_next_in_chain` (src/logic/prerequisites.py lines 164-201): true when
the course is absent from `course_to_chains`, or when its order in some chain
equals that chain's `max_completed + 1`. -/
def is_next_in_chain (course_code : String) (taken : List String)
    (pd : PrereqData) : Bool :=
  match dget pd.course_to_chains course_code with
  | none => true
  | some entries =>
      entries.any fun p =>
        p.2 == maxCompletedIn ((dget pd.chains p.1).getD []) taken + 1

/-- `get_eligible_courses` (src/logic/prerequisites.py lines 204-238):
with empty chain data all required courses come back; otherwise keep the
not-yet-taken courses that are next in at least one chain. -/
def get_eligible_courses (taken all_required : List String)
    (pd : PrereqData) : List String :=
  if pd.chains = [] then all_required
  else
    all_required.filter fun course =>
      if course ∈ taken then false
      else is_next_in_chain course taken pd

/-- A row of the curriculum requirements table: a course code plus the
per-major mark columns ('X' marks the course required for that major). -/
structure ReqRow where
  course_code : String
  marks : List (String × String)
deriving DecidableEq

/-- The fixed recognized majors list used by the requirement lookups. -/
def availableMajors : List String := ["BAD", "THM", "FIN", "TES", "INT"]

/-- The major-code stem extraction used by `filter_student_requirements` and
`get_student_requirements_fast`:
`major_code.split("-")[0] if "-" in major_code else major_code[:3]`
(the piece before the first dash, else the first three characters),
computed on the character list. -/
def extractMajor (major_code : String) : String :=
  if '-' ∈ major_code.data then
    String.mk (major_code.data.takeWhile fun c => c ≠ '-')
  else String.mk (major_code.data.take 3)

/-- `filter_student_requirements` (src/logic/prerequisites.py lines 241-285). -/
def filter_student_requirements (_student_id major_code : String)
    (taken : List String) (requirements : List ReqRow)
    (pd : PrereqData) : List String :=
  if requirements = [] then []
  else
    let mp := extractMajor major_code
    if mp ∈ availableMajors then
      let required_codes :=
        (requirements.filter fun r => (dget r.marks mp).getD "" = "X").map
          (fun r => r.course_code)
      let missing := required_codes.filter fun code => ¬ code ∈ taken
      get_eligible_courses taken missing pd
    else []

/-- `get_student_requirements_fast` (src/logic/course_matching.py lines
257-305); `prereq_data = None` disables the eligibility filter. -/
def get_student_requirements_fast (student_id major_code : String)
    (requirements : List ReqRow) (transcripts : List (String × List String))
    (prereq_data : Option PrereqData) : List String :=
  if requirements = [] then []
  else
    let mp := extractMajor major_code
    if mp ∈ availableMajors then
      let required_codes :=
        (requirements.filter fun r => (dget r.marks mp).getD "" = "X").map
          (fun r => r.course_code)
      let taken := (dget transcripts student_id).getD []
      let missing := required_codes.filter fun code => ¬ code ∈ taken
      match prereq_data with
      | some pd => get_eligible_courses taken missing pd
      | none => missing
    else []

/-- `TIME_SLOT_LABELS` (src/logic/optimization.py lines 35-56). -/
def TIME_SLOT_LABELS : List (String × String) :=
  [("MW_0800", "MW 8:00-9:30 AM"),
   ("TTH_0800", "TTH 8:00-9:30 AM"),
   ("MW_0930", "MW 9:30-11:00 AM"),
   ("TTH_0930", "TTH 9:30-11:00 AM"),
   ("Fri_0800", "Fri 8:00-11:00 AM"),
   ("Sat_0800", "Sat 8:00-11:00 AM"),
   ("MW_1800", "MW 6:00-7:30 PM"),
   ("TTH_1800", "TTH 6:00-7:30 PM"),
   ("MW_1930", "MW 7:30-9:00 PM"),
   ("TTH_1930", "TTH 7:30-9:00 PM"),
   ("Fri_1800", "Fri 6:00-9:00 PM"),
   ("Sat_1800", "Sat 6:00-9:00 PM"),
   ("M_1800_3hr", "M 6:00-9:00 PM (3hr)"),
   ("T_1800_3hr", "T 6:00-9:00 PM (3hr)"),
   ("W_1800_3hr", "W 6:00-9:00 PM (3hr)"),
   ("Th_1800_3hr", "Th 6:00-9:00 PM (3hr)"),
   ("Fri_1800_3hr", "Fri 6:00-9:00 PM (3hr)")]

/-- `TIME_SLOT_CONFLICTS` (src/logic/optimization.py lines 59-65): which
slots each 3-hour block overlaps. -/
def TIME_SLOT_CONFLICTS : List (String × List String) :=
  [("M_1800_3hr", ["MW_1800", "MW_1930"]),
   ("T_1800_3hr", ["TTH_1800", "TTH_1930"]),
   ("W_1800_3hr", ["MW_1800", "MW_1930"]),
   ("Th_1800_3hr", ["TTH_1800", "TTH_1930"]),
   ("Fri_1800_3hr", ["Fri_1800"])]

/-- `get_time_slot_label` (src/logic/optimization.py lines 68-70). -/
def get_time_slot_label (slot : String) : String :=
  (dget TIME_SLOT_LABELS slot).getD slot

/-- `slots_conflict` (src/logic/optimization.py lines 73-97): identical slots
conflict, and a slot listed in the other's `TIME_SLOT_CONFLICTS` entry
conflicts (an absent key is an empty overlap list). -/
def slots_conflict (slot1 slot2 : String) : Bool :=
  if slot1 = slot2 then true
  else if slot2 ∈ (dget TIME_SLOT_CONFLICTS slot1).getD [] then true
  else if slot1 ∈ (dget TIME_SLOT_CONFLICTS slot2).getD [] then true
  else false

/-- A roster entry: the fields of the student dicts that
`check_roster_conflicts` reads (`StudentId`, `Name`). -/
structure StudentRec where
  studentId : String
  name : String
deriving DecidableEq

/-- A conflict record as built by `check_roster_conflicts`. -/
structure Conflict where
  studentId : String
  name : String
  conflictSlot : String
  courses : List String
deriving DecidableEq

/-- Inner loop of the roster pass: add one student of a slot-assigned course
to `student_courses` and `student_names` (lines 126-129 of optimization.py). -/
def addStudent (course slot : String)
    (acc : List (String × List (String × String)) × List (String × String))
    (st : StudentRec) :
    List (String × List (String × String)) × List (String × String) :=
  (dictAppend acc.1 st.studentId (course, slot), dictSet acc.2 st.studentId st.name)

/-- One roster entry of the build pass (lines 122-129 of optimization.py):
skip courses without a slot assignment, with an empty slot, or with the
sentinel `"Unassigned"`. -/
def addRoster (offered : List (String × String))
    (acc : List (String × List (String × String)) × List (String × String))
    (entry : String × List StudentRec) :
    List (String × List (String × String)) × List (String × String) :=
  match dget offered entry.1 with
  | none => acc
  | some slot =>
      if slot ≠ "" ∧ slot ≠ "Unassigned" then
        entry.2.foldl (addStudent entry.1 slot) acc
      else acc

/-- The `student_courses` / `student_names` maps built by
`check_roster_conflicts` (src/logic/optimization.py lines 118-129). -/
def buildStudentCourses (offered : List (String × String))
    (rosters : List (String × List StudentRec)) :
    List (String × List (String × String)) × List (String × String) :=
  rosters.foldl (addRoster offered) ([], [])

/-- The pairwise scan over one student's enrollments
(src/logic/optimization.py lines 132-143): one record per `i < j` pair whose
slots conflict. -/
def pairConflicts (sid nm : String) :
    List (String × String) → List Conflict
  | [] => []
  | (c1, s1) :: rest =>
      (rest.filterMap fun p =>
        if slots_conflict s1 p.2 then
          some { studentId := sid, name := nm,
                 conflictSlot :=
                   get_time_slot_label s1 ++ " â†” " ++ get_time_slot_label p.2,
                 courses := [c1, p.1] }
        else none)
      ++ pairConflicts sid nm rest

/-- `check_roster_conflicts` (src/logic/optimization.py lines 100-145). -/
def check_roster_conflicts (offered : List (String × String))
    (rosters : List (String × List StudentRec)) : List Conflict :=
  if offered = [] ∨ rosters = [] then []
  else
    let built := buildStudentCourses offered rosters
    built.1.flatMap fun e =>
      pairConflicts e.1 ((dget built.2 e.1).getD "Unknown") e.2

/-- The number of unordered enrollment pairs whose slots conflict (the count
of records `pairConflicts` emits). -/
def countConflictPairs : List (String × String) → Nat
  | [] => 0
  | (_, s1) :: rest =>
      (rest.filter fun p => slots_conflict s1 p.2).length + countConflictPairs rest

/-- The fields of a row of the active-students DataFrame that
`generate_needs_matrix` reads. -/
structure StudentRow where
  studentId : String
  name : String
  email : String
  major : String
  cohort : String
  lastActiveDate : String
deriving DecidableEq

/-- One `student_data` record of `generate_needs_matrix`
(src/logic/course_matching.py lines 465-476): metadata plus the courses
flagged 1 for this student, in emission order. -/
structure NeedsRow where
  studentId : String
  name : String
  email : String
  major : String
  cohort : String
  lastEnroll : String
  needs : List String
deriving DecidableEq

/-- The metadata column names of the needs matrix. -/
def metadataCols : List String :=
  ["StudentId", "Name", "Email", "Major", "Cohort", "LastEnroll"]

/-- Column order of `pd.DataFrame(all_needs)`: keys in first-appearance
order, i.e. the metadata columns then each needed course on first sight. -/
def needsColumns (rows : List NeedsRow) : List String :=
  metadataCols ++ (rows.flatMap (fun r => r.needs)).eraseDups

/-- `generate_needs_matrix` (src/logic/course_matching.py lines 422-490)
with its collaborator data (requirements, prerequisite data, bulk
transcripts) passed in: the per-student records plus the resulting
DataFrame column list (missing course cells are filled 0 downstream). -/
def generate_needs_matrix (students : List StudentRow)
    (requirements : List ReqRow) (prereq_data : Option PrereqData)
    (transcripts : List (String × List String)) :
    List NeedsRow × List String :=
  if students = [] then ([], [])
  else
    let rows := students.map fun s =>
      { studentId := s.studentId, name := s.name, email := s.email,
        major := s.major, cohort := s.cohort, lastEnroll := s.lastActiveDate,
        needs := get_student_requirements_fast s.studentId s.major
          requirements transcripts prereq_data : NeedsRow }
    (rows, needsColumns rows)

/-- The needs matrix as consumed by `compute_demand_summary`: its column
list and its rows, each row an association from column name to 0/1 flag
(absent cells read as 0 after the `fillna(0)`). -/
structure NeedsDF where
  columns : List String
  rows : List (List (String × Nat))
deriving DecidableEq

/-- `needs_df[course].sum()`: the column sum of a course column. -/
def colSum (df : NeedsDF) (course : String) : Nat :=
  (df.rows.map fun r => (dget r course).getD 0).sum

/-- The last-offered history record for a course
(`get_bulk_course_history` collaborator output). -/
structure HistoryRec where
  startDate : String
  monthsAgo : Nat
deriving DecidableEq

/-- A row of the demand summary DataFrame. -/
structure DemandRec where
  course : String
  demand : Nat
  lastOffered : Option String
  monthsAgo : Nat
deriving DecidableEq

/-- `compute_demand_summary` (src/logic/course_matching.py lines 493-545)
with the bulk course-history collaborator passed in: keep each non-metadata
column whose flags sum positive, then join with history (absent history
gives the 999 never-offered sentinel). -/
def compute_demand_summary (df : NeedsDF)
    (history : List (String × HistoryRec)) : List DemandRec :=
  if df.rows = [] ∨ df.columns = [] then []
  else
    let course_cols := df.columns.filter fun c => ¬ c ∈ metadataCols
    let demand_data := course_cols.filterMap fun c =>
      let count := colSum df c
      if count > 0 then some (c, count) else none
    demand_data.map fun p =>
      match dget history p.1 with
      | some h =>
          { course := p.1, demand := p.2, lastOffered := some h.startDate,
            monthsAgo := h.monthsAgo }
      | none =>
          { course := p.1, demand := p.2, lastOffered := none, monthsAgo := 999 }

/-- A CSV row of `pre-requisites.csv` as read by `load_prerequisites`:
the `ChainID`, `Order` and `CourseCode` cells already passed through
Python `str(...)` (a missing cell reads as the string `"nan"`). -/
structure CsvRow where
  chainID : String
  order : String
  courseCode : String
deriving DecidableEq

/-- Decimal digit run of Python `int(...)`: at least one digit, most
significant first. -/
def parseDigitsAux : List Char → Nat → Option Nat
  | [], acc => some acc
  | c :: rest, acc =>
      if c.isDigit then parseDigitsAux rest (acc * 10 + (c.toNat - 48))
      else none

/-- Model of Python `int(s)` on an already-stripped string: an optional
sign followed by one or more decimal digits, `none` when unparseable. -/
def pyInt (s : String) : Option Int :=
  match s.data with
  | [] => none
  | '-' :: rest =>
      match rest with
      | [] => none
      | _ => (parseDigitsAux rest 0).map fun n => -(n : Int)
  | '+' :: rest =>
      match rest with
      | [] => none
      | _ => (parseDigitsAux rest 0).map fun n => (n : Int)
  | l => (parseDigitsAux l 0).map fun n => (n : Int)

/-- The nondecreasing-order relation on chain entries used to sort each
chain (`sorted(chain, key=lambda x: x[0])`). -/
def chainLE (a b : Int × String) : Prop := a.1 ≤ b.1

instance : DecidableRel chainLE := fun a b =>
  inferInstanceAs (Decidable (a.1 ≤ b.1))

instance : IsTotal (Int × String) chainLE :=
  ⟨fun a b => Int.le_total a.1 b.1⟩

instance : IsTrans (Int × String) chainLE :=
  ⟨fun _ _ _ => Int.le_trans⟩

/-- Python `str.strip()`: drop leading and trailing whitespace, computed on
the character list. -/
def pyStrip (s : String) : String :=
  String.mk
    (((s.data.dropWhile Char.isWhitespace).reverse.dropWhile
        Char.isWhitespace).reverse)

/-- The per-row body of `load_prerequisites`'s loop
(src/logic/prerequisites.py lines 56-76): strip the three cells, skip
empty/`nan`/non-integer rows, otherwise append to both views. -/
def processRow
    (acc : List (String × List (Int × String)) × List (String × List (String × Int)))
    (row : CsvRow) :
    List (String × List (Int × String)) × List (String × List (String × Int)) :=
  let chain_id := pyStrip row.chainID
  let order_str := pyStrip row.order
  let course_code := pyStrip row.courseCode
  if chain_id = "" ∨ order_str = "" ∨ course_code = "" then acc
  else if chain_id = "nan" ∨ order_str = "nan" ∨ course_code = "nan" then acc
  else
    match pyInt order_str with
    | none => acc
    | some order =>
        (dictAppend acc.1 chain_id (order, course_code),
         dictAppend acc.2 course_code (chain_id, order))

/-- `load_prerequisites` (src/logic/prerequisites.py lines 50-89) on its
in-memory row list: build both views then stably sort each chain by order. -/
def load_prerequisites (rows : List CsvRow) : PrereqData :=
  let built := rows.foldl processRow ([], [])
  { chains := built.1.map fun kc => (kc.1, kc.2.insertionSort chainLE),
    course_to_chains := built.2 }

/-! ### Association-list lemmas -/

theorem dget_mem {β : Type} (d : List (String × β)) (k : String) (v : β)
    (h : dget d k = some v) : (k, v) ∈ d := by
  induction d with
  | nil => simp [dget] at h
  | cons e rest ih =>
      obtain ⟨k0, v0⟩ := e
      by_cases hk : k0 = k
      · subst hk
        simp [dget] at h
        simp [h]
      · simp [dget, hk] at h
        exact List.mem_cons_of_mem _ (ih h)

theorem dget_eq_none_iff {β : Type} (d : List (String × β)) (k : String) :
    dget d k = none ↔ ¬ k ∈ dkeys d := by
  induction d with
  | nil => simp [dget, dkeys]
  | cons e rest ih =>
      obtain ⟨k0, v0⟩ := e
      by_cases hk : k0 = k
      · subst hk; simp [dget, dkeys]
      · have hk' : ¬ k = k0 := fun h => hk h.symm
        simp only [dget, hk, if_false, ih, dkeys, List.map_cons, List.mem_cons]
        constructor
        · intro h hc
          rcases hc with hc | hc
          · exact hk' hc
          · exact h hc
        · intro h hc
          exact h (Or.inr hc)

theorem dget_dictAppend {α : Type} (d : List (String × List α)) (k : String)
    (v : α) (k' : String) :
    dget (dictAppend d k v) k' =
      if k' = k then some ((dget d k).getD [] ++ [v]) else dget d k' := by
  induction d with
  | nil =>
      by_cases h : k' = k <;> simp [dictAppend, dget, h]
      intro h'; exact absurd h'.symm h
  | cons e rest ih =>
      obtain ⟨k0, vs⟩ := e
      by_cases h0 : k0 = k
      · subst h0
        by_cases h1 : k' = k0
        · subst h1; simp [dictAppend, dget]
        · have h2 : ¬ k0 = k' := fun h => h1 h.symm
          simp [dictAppend, dget, h1, h2]
      · by_cases h1 : k' = k
        · subst h1
          simp [dictAppend, dget, h0, ih, fun h : k0 = k' => h0 h]
        · by_cases h2 : k0 = k' <;>
            simp [dictAppend, dget, h0, h1, h2, ih]

theorem dkeys_dictAppend {α : Type} (d : List (String × List α)) (k : String)
    (v : α) :
    dkeys (dictAppend d k v) =
      if k ∈ dkeys d then dkeys d else dkeys d ++ [k] := by
  induction d with
  | nil => simp [dictAppend, dkeys]
  | cons e rest ih =>
      obtain ⟨k0, vs⟩ := e
      by_cases h0 : k0 = k
      · subst h0; simp [dictAppend, dkeys]
      · have hk' : ¬ k = k0 := fun h => h0 h.symm
        have hstep : dictAppend ((k0, vs) :: rest) k v
            = (k0, vs) :: dictAppend rest k v := by
          simp [dictAppend, h0]
        rw [hstep,
          show dkeys ((k0, vs) :: dictAppend rest k v)
              = k0 :: dkeys (dictAppend rest k v) from rfl,
          ih,
          show dkeys ((k0, vs) :: rest) = k0 :: dkeys rest from rfl]
        by_cases hm : k ∈ dkeys rest
        · simp [hm, hk']
        · simp [hm, hk']

theorem nodup_dkeys_dictAppend {α : Type} (d : List (String × List α))
    (k : String) (v : α) (h : (dkeys d).Nodup) :
    (dkeys (dictAppend d k v)).Nodup := by
  rw [dkeys_dictAppend]
  by_cases hm : k ∈ dkeys d
  · simp [hm, h]
  · simp [hm, List.nodup_append, h]

theorem dictAppend_values {α : Type} (Q : α → Prop)
    (d : List (String × List α)) (k : String) (v : α)
    (hd : ∀ e ∈ d, ∀ x ∈ e.2, Q x) (hv : Q v) :
    ∀ e ∈ dictAppend d k v, ∀ x ∈ e.2, Q x := by
  induction d with
  | nil =>
      intro e he x hx
      simp [dictAppend] at he
      subst he
      simp at hx
      subst hx; exact hv
  | cons e0 rest ih =>
      obtain ⟨k0, vs⟩ := e0
      by_cases h0 : k0 = k
      · subst h0
        intro e he x hx
        simp [dictAppend] at he
        rcases he with he | he
        · subst he
          simp at hx
          rcases hx with hx | hx
          · exact hd (k0, vs) (by simp) x hx
          · subst hx; exact hv
        · exact hd e (by simp [he]) x hx
      · intro e he x hx
        simp [dictAppend, h0] at he
        rcases he with he | he
        · subst he; exact hd (k0, vs) (by simp) x hx
        · exact ih (fun e' he' => hd e' (by simp [he'])) e he x hx

theorem dget_map_snd {α β : Type} (f : α → β) (d : List (String × α))
    (k : String) :
    dget (d.map fun kc => (kc.1, f kc.2)) k = (dget d k).map f := by
  induction d with
  | nil => simp [dget]
  | cons e rest ih =>
      obtain ⟨k0, v0⟩ := e
      by_cases h0 : k0 = k <;> simp [dget, h0, ih]

/-! ### C1 / C4: `is_next_in_chain` semantics -/

/-- The maximum of a list of integers, 0 when empty (the claim's reading of
"highest order among entries ... (0 if none)"). -/
def listMaxD (l : List Int) : Int :=
  match l with
  | [] => 0
  | o :: os => os.foldl max o

/-- `max_completed` as the claim words it: the highest order among entries
of the chain whose course code is in the completed list, 0 if none. -/
def specMaxCompleted (chain : List (Int × String)) (taken : List String) : Int :=
  listMaxD ((chain.filter fun p => decide (p.2 ∈ taken)).map Prod.fst)

theorem maxCompletedIn_foldl (chain : List (Int × String))
    (taken : List String) (a : Int) :
    chain.foldl (fun m p => if p.2 ∈ taken then max m p.1 else m) a
      = List.foldl max a ((chain.filter fun p => decide (p.2 ∈ taken)).map Prod.fst) := by
  induction chain generalizing a with
  | nil => rfl
  | cons p rest ih =>
      by_cases h : p.2 ∈ taken <;>
        simp [List.filter_cons, h, ih]

theorem foldl_max_listMaxD (l : List Int) (h : ∀ x ∈ l, 0 ≤ x) :
    List.foldl max 0 l = listMaxD l := by
  cases l with
  | nil => rfl
  | cons o os =>
      have h0 : max 0 o = o := max_eq_right (h o (by simp))
      simp [listMaxD, List.foldl_cons, h0]

theorem maxCompletedIn_eq_spec (chain : List (Int × String))
    (taken : List String) (h : ∀ p ∈ chain, 0 ≤ p.1) :
    maxCompletedIn chain taken = specMaxCompleted chain taken := by
  unfold maxCompletedIn specMaxCompleted
  rw [maxCompletedIn_foldl]
  apply foldl_max_listMaxD
  intro x hx
  simp only [List.mem_map, List.mem_filter] at hx
  obtain ⟨p, ⟨hp, _⟩, hfst⟩ := hx
  exact hfst ▸ h p hp

/-- All orders recorded in the chain view are nonnegative (holds for real
chain data, whose orders start at 1). -/
def chainOrdersOK (pd : PrereqData) : Bool :=
  pd.chains.all fun kc => kc.2.all fun p => 0 ≤ p.1

theorem chainOrdersOK_chain (pd : PrereqData) (h : chainOrdersOK pd = true)
    (cid : String) : ∀ p ∈ (dget pd.chains cid).getD [], 0 ≤ p.1 := by
  cases hc : dget pd.chains cid with
  | none => simp
  | some chain =>
      have hm := dget_mem pd.chains cid chain hc
      simp only [chainOrdersOK, List.all_eq_true, decide_eq_true_eq] at h
      intro p hp
      exact h (cid, chain) hm p hp

/-- C1: `is_next_in_chain(course, completed, index)` is true iff the course
is absent from `course_to_chains`, or some `(chain_id, order)` pair it
participates in has `order = max_completed + 1`, where `max_completed` is
the highest order among that chain's entries completed by the student
(0 if none); a course next in any one chain is eligible regardless of its
other chains. -/
theorem is_next_in_chain_spec (course : String) (taken : List String)
    (pd : PrereqData) (h : chainOrdersOK pd = true) :
    is_next_in_chain course taken pd = true ↔
      dget pd.course_to_chains course = none ∨
      ∃ p ∈ (dget pd.course_to_chains course).getD [],
        p.2 = specMaxCompleted ((dget pd.chains p.1).getD []) taken + 1 := by
  cases hc : dget pd.course_to_chains course with
  | none => simp [is_next_in_chain, hc]
  | some entries =>
      have hmax : ∀ p : String × Int,
          maxCompletedIn ((dget pd.chains p.1).getD []) taken
            = specMaxCompleted ((dget pd.chains p.1).getD []) taken :=
        fun p => maxCompletedIn_eq_spec _ _ (chainOrdersOK_chain pd h p.1)
      simp only [is_next_in_chain, hc, Option.getD_some]
      rw [List.any_eq_true]
      constructor
      · rintro ⟨p, hp, hf⟩
        right
        refine ⟨p, hp, ?_⟩
        rw [← hmax p]
        exact beq_iff_eq.mp hf
      · rintro (h0 | ⟨p, hp, he⟩)
        · simp at h0
        · exact ⟨p, hp, by rw [beq_iff_eq, hmax p]; exact he⟩

/-- Concrete chain data for the witnesses: the ACCT chain of the spec. -/
def pdW : PrereqData :=
  { chains := [("a", [(1, "ACCT-310"), (2, "ACCT-312"), (3, "ACCT-313")])],
    course_to_chains :=
      [("ACCT-310", [("a", 1)]), ("ACCT-312", [("a", 2)]),
       ("ACCT-313", [("a", 3)])] }

theorem is_next_in_chain_spec_witness :
    chainOrdersOK pdW = true ∧
      (is_next_in_chain "ACCT-312" ["ACCT-310"] pdW = true ↔
        dget pdW.course_to_chains "ACCT-312" = none ∨
        ∃ p ∈ (dget pdW.course_to_chains "ACCT-312").getD [],
          p.2 = specMaxCompleted ((dget pdW.chains p.1).getD [])
            ["ACCT-310"] + 1) :=
  ⟨by decide, is_next_in_chain_spec "ACCT-312" ["ACCT-310"] pdW (by decide)⟩

/-- Chain data with a gap scenario: one chain `g` holding A, B, C, D at
orders 1-4. -/
def pdGap : PrereqData :=
  { chains := [("g", [(1, "A"), (2, "B"), (3, "C"), (4, "D")])],
    course_to_chains :=
      [("A", [("g", 1)]), ("B", [("g", 2)]), ("C", [("g", 3)]),
       ("D", [("g", 4)])] }

/-- C4: eligibility is gap-tolerant: `max_completed` is the maximum
completed order of the chain (not a contiguous-run length), and for chain
[(1,A),(2,B),(3,C),(4,D)] with completed = {A, C} the course D (order
4 = 3 + 1) is next while B is not. -/
theorem gap_tolerant_eligibility :
    (∀ (chain : List (Int × String)) (taken : List String),
        (∀ p ∈ chain, 0 ≤ p.1) →
        maxCompletedIn chain taken = specMaxCompleted chain taken)
    ∧ maxCompletedIn [(1, "A"), (2, "B"), (3, "C"), (4, "D")] ["A", "C"] = 3
    ∧ is_next_in_chain "D" ["A", "C"] pdGap = true
    ∧ is_next_in_chain "B" ["A", "C"] pdGap = false :=
  ⟨fun chain taken h => maxCompletedIn_eq_spec chain taken h,
   by decide, by decide, by decide⟩

theorem gap_tolerant_eligibility_witness :
    maxCompletedIn [((1 : Int), "A"), (3, "C")] ["A", "C"]
      = specMaxCompleted [((1 : Int), "A"), (3, "C")] ["A", "C"] :=
  gap_tolerant_eligibility.1 [((1 : Int), "A"), (3, "C")] ["A", "C"]
    (by decide)

/-- Members of `get_eligible_courses`'s result come from the required list. -/
theorem mem_get_eligible_courses (taken l : List String) (pd : PrereqData)
    (c : String) (h : c ∈ get_eligible_courses taken l pd) : c ∈ l := by
  unfold get_eligible_courses at h
  by_cases hc : pd.chains = []
  · simpa [hc] using h
  · simp only [hc, if_false, List.mem_filter] at h
    exact h.1

/-- C5: `filter_student_requirements` never returns a course that is in the
student's completed list. -/
theorem filter_student_requirements_not_taken (student_id major_code : String)
    (taken : List String) (requirements : List ReqRow) (pd : PrereqData) :
    ∀ c ∈ filter_student_requirements student_id major_code taken
        requirements pd, ¬ c ∈ taken := by
  intro c hc
  unfold filter_student_requirements at hc
  by_cases h1 : requirements = []
  · simp [h1] at hc
  · simp only [h1, if_false] at hc
    by_cases h2 : extractMajor major_code ∈ availableMajors
    · simp only [h2, if_true] at hc
      have hm := mem_get_eligible_courses _ _ _ _ hc
      simp only [List.mem_filter, decide_eq_true_eq] at hm
      exact hm.2
    · simp [h2] at hc

/-- A concrete requirements table for the witnesses. -/
def reqsW : List ReqRow :=
  [{ course_code := "ACCT-101", marks := [("TES", "X")] }]

theorem filter_student_requirements_not_taken_witness :
    ¬ "ACCT-101" ∈ ["ACCT-999"] :=
  filter_student_requirements_not_taken "S1" "TES-53E" ["ACCT-999"] reqsW
    ⟨[], []⟩ "ACCT-101" (by decide)

/-- C7: a major code whose extracted stem is not a recognized major yields
an empty requirements list (no error) from both requirement computations. -/
theorem unknown_major_empty (student_id major_code : String)
    (taken : List String) (requirements : List ReqRow) (pd : PrereqData)
    (transcripts : List (String × List String)) (opd : Option PrereqData)
    (h : ¬ extractMajor major_code ∈ availableMajors) :
    filter_student_requirements student_id major_code taken requirements pd = []
    ∧ get_student_requirements_fast student_id major_code requirements
        transcripts opd = [] := by
  constructor
  · unfold filter_student_requirements
    by_cases h1 : requirements = [] <;> simp [h1, h]
  · unfold get_student_requirements_fast
    by_cases h1 : requirements = [] <;> simp [h1, h]

theorem unknown_major_empty_witness :
    filter_student_requirements "S1" "XYZ-1" [] reqsW ⟨[], []⟩ = []
    ∧ get_student_requirements_fast "S1" "XYZ-1" reqsW [] none = [] :=
  unknown_major_empty "S1" "XYZ-1" [] reqsW ⟨[], []⟩ [] none (by decide)

/-- A concrete student row for the witnesses. -/
def stuW : StudentRow :=
  { studentId := "S1", name := "Alice", email := "a@x", major := "TES-53E",
    cohort := "53E", lastActiveDate := "2024-01-01" }

/-- C8: needs-matrix construction is a pure function of its inputs: two
runs on identical students, requirements, prerequisite data and
transcripts produce identical outputs. -/
theorem generate_needs_matrix_deterministic
    (s1 s2 : List StudentRow) (r1 r2 : List ReqRow)
    (p1 p2 : Option PrereqData) (t1 t2 : List (String × List String))
    (hs : s1 = s2) (hr : r1 = r2) (hp : p1 = p2) (ht : t1 = t2) :
    generate_needs_matrix s1 r1 p1 t1 = generate_needs_matrix s2 r2 p2 t2 := by
  rw [hs, hr, hp, ht]

theorem generate_needs_matrix_deterministic_witness :
    generate_needs_matrix [stuW] reqsW (some pdW) [("S1", [])]
      = generate_needs_matrix [stuW] reqsW (some pdW) [("S1", [])] :=
  generate_needs_matrix_deterministic [stuW] [stuW] reqsW reqsW
    (some pdW) (some pdW) [("S1", [])] [("S1", [])] rfl rfl rfl rfl

/-- C10: with empty chain data `get_eligible_courses` returns the required
list unchanged — the already-taken skip lives only in the other branch, so
completed courses can come back as eligible. -/
theorem get_eligible_courses_empty_chains (taken all_required : List String)
    (pd : PrereqData) (h : pd.chains = []) :
    get_eligible_courses taken all_required pd = all_required := by
  simp [get_eligible_courses, h]

theorem get_eligible_courses_empty_chains_witness :
    get_eligible_courses ["ACCT-310"] ["ACCT-310", "ACCT-312"] ⟨[], []⟩
      = ["ACCT-310", "ACCT-312"] :=
  get_eligible_courses_empty_chains ["ACCT-310"] ["ACCT-310", "ACCT-312"]
    ⟨[], []⟩ rfl

/-- C3: `slots_conflict` is true iff the slots are identical or either
slot's static overlap entry contains the other, making it reflexive and
symmetric; in particular the 3-hour Wednesday block conflicts with both
MW evening slots despite distinct codes. -/
theorem slots_conflict_spec :
    (∀ s1 s2, slots_conflict s1 s2 = true ↔
        s1 = s2 ∨ s2 ∈ (dget TIME_SLOT_CONFLICTS s1).getD []
          ∨ s1 ∈ (dget TIME_SLOT_CONFLICTS s2).getD [])
    ∧ (∀ s, slots_conflict s s = true)
    ∧ (∀ s1 s2, slots_conflict s1 s2 = slots_conflict s2 s1)
    ∧ slots_conflict "W_1800_3hr" "MW_1800" = true
    ∧ slots_conflict "W_1800_3hr" "MW_1930" = true := by
  have hiff : ∀ s1 s2, slots_conflict s1 s2 = true ↔
      s1 = s2 ∨ s2 ∈ (dget TIME_SLOT_CONFLICTS s1).getD []
        ∨ s1 ∈ (dget TIME_SLOT_CONFLICTS s2).getD [] := by
    intro s1 s2
    unfold slots_conflict
    by_cases h1 : s1 = s2 <;>
      by_cases h2 : s2 ∈ (dget TIME_SLOT_CONFLICTS s1).getD [] <;>
      by_cases h3 : s1 ∈ (dget TIME_SLOT_CONFLICTS s2).getD [] <;>
      simp [h1, h2, h3]
  refine ⟨hiff, fun s => (hiff s s).mpr (Or.inl rfl), ?_, by decide, by decide⟩
  intro s1 s2
  cases hc : slots_conflict s1 s2 with
  | true =>
      have hd := (hiff s1 s2).mp hc
      have : slots_conflict s2 s1 = true := by
        apply (hiff s2 s1).mpr
        rcases hd with hd | hd | hd
        · exact Or.inl hd.symm
        · exact Or.inr (Or.inr hd)
        · exact Or.inr (Or.inl hd)
      rw [this]
  | false =>
      cases hc2 : slots_conflict s2 s1 with
      | false => rfl
      | true =>
          have hd := (hiff s2 s1).mp hc2
          have : slots_conflict s1 s2 = true := by
            apply (hiff s1 s2).mpr
            rcases hd with hd | hd | hd
            · exact Or.inl hd.symm
            · exact Or.inr (Or.inr hd)
            · exact Or.inr (Or.inl hd)
          rw [hc] at this
          exact absurd this (by simp)

/-- C6: every record of the demand summary counts at least one student:
its demand equals the (positive) column sum of a genuine course column of
the needs matrix, so zero-demand or absent courses never appear. -/
theorem compute_demand_summary_pos (df : NeedsDF)
    (history : List (String × HistoryRec)) :
    ∀ rec ∈ compute_demand_summary df history,
      1 ≤ rec.demand ∧ rec.course ∈ df.columns
        ∧ ¬ rec.course ∈ metadataCols ∧ colSum df rec.course = rec.demand := by
  intro rec hrec
  unfold compute_demand_summary at hrec
  by_cases he : df.rows = [] ∨ df.columns = []
  · simp [he] at hrec
  · simp only [he, if_false] at hrec
    simp only [List.mem_map] at hrec
    obtain ⟨p, hp, hrec⟩ := hrec
    simp only [List.mem_filterMap] at hp
    obtain ⟨c, hc, hpc⟩ := hp
    by_cases hpos : colSum df c > 0
    · simp only [hpos, if_pos] at hpc
      have hp2 : p = (c, colSum df c) := by
        injection hpc with h'
        exact h'.symm
      subst hp2
      simp only [List.mem_filter, decide_eq_true_eq] at hc
      have hcr : rec.course = c ∧ rec.demand = colSum df c := by
        cases hdg : dget history c <;> rw [hdg] at hrec <;>
          cases hrec <;> exact ⟨rfl, rfl⟩
      rw [hcr.1, hcr.2]
      exact ⟨hpos, hc.1, hc.2, rfl⟩
    · simp [hpos] at hpc

/-- A concrete needs matrix for the C6 witness: two students, one course
column with positive demand. -/
def dfW : NeedsDF :=
  { columns := ["StudentId", "Name", "ACCT-101"],
    rows := [[("StudentId", 0), ("ACCT-101", 1)], [("ACCT-101", 1)]] }

/-- The demand record produced for `dfW`. -/
def recW : DemandRec :=
  { course := "ACCT-101", demand := 2, lastOffered := none, monthsAgo := 999 }

theorem compute_demand_summary_pos_witness :
    1 ≤ recW.demand ∧ recW.course ∈ dfW.columns
      ∧ ¬ recW.course ∈ metadataCols ∧ colSum dfW recW.course = recW.demand :=
  compute_demand_summary_pos dfW [] recW (by decide)

/-! ### C2: roster conflict counting -/

/-- The course carries a real slot assignment: the pair was built from
`offered_courses` and is neither empty nor the `"Unassigned"` sentinel. -/
def assignedSlot (offered : List (String × String)) (p : String × String) :
    Prop :=
  dget offered p.1 = some p.2 ∧ p.2 ≠ "" ∧ p.2 ≠ "Unassigned"

theorem length_filterMap_ite {α β : Type} (g : α → β) (p : α → Bool)
    (l : List α) :
    (l.filterMap fun x => if p x then some (g x) else none).length
      = (l.filter p).length := by
  induction l with
  | nil => rfl
  | cons a l ih =>
      by_cases h : p a = true <;>
        simp [List.filterMap_cons, List.filter_cons, h, ih]

theorem pairConflicts_length (sid nm : String)
    (enr : List (String × String)) :
    (pairConflicts sid nm enr).length = countConflictPairs enr := by
  induction enr with
  | nil => rfl
  | cons p rest ih =>
      obtain ⟨c1, s1⟩ := p
      simp only [pairConflicts, countConflictPairs, List.length_append, ih]
      rw [length_filterMap_ite
        (fun q : String × String =>
          ({ studentId := sid, name := nm,
             conflictSlot := get_time_slot_label s1 ++ " â†” "
               ++ get_time_slot_label q.2,
             courses := [c1, q.1] } : Conflict))
        (fun q => slots_conflict s1 q.2) rest]

theorem pairConflicts_mem (sid nm : String) (enr : List (String × String))
    (c : Conflict) (hc : c ∈ pairConflicts sid nm enr) :
    c.studentId = sid ∧ c.courses.length = 2 ∧
      ∀ code ∈ c.courses, ∃ s, (code, s) ∈ enr := by
  induction enr with
  | nil => simp [pairConflicts] at hc
  | cons p rest ih =>
      obtain ⟨c1, s1⟩ := p
      simp only [pairConflicts, List.mem_append] at hc
      rcases hc with hc | hc
      · simp only [List.mem_filterMap] at hc
        obtain ⟨q, hq, hqc⟩ := hc
        by_cases hs : slots_conflict s1 q.2 = true
        · simp only [hs, if_pos] at hqc
          cases hqc
          refine ⟨rfl, rfl, ?_⟩
          intro code hcode
          simp only [List.mem_cons, List.not_mem_nil, or_false] at hcode
          rcases hcode with rfl | rfl
          · exact ⟨s1, by simp⟩
          · exact ⟨q.2, List.mem_cons_of_mem _ (by simpa using hq)⟩
        · simp [hs] at hqc
      · obtain ⟨h1, h2, h3⟩ := ih hc
        refine ⟨h1, h2, fun code hcode => ?_⟩
        obtain ⟨s, hs⟩ := h3 code hcode
        exact ⟨s, List.mem_cons_of_mem _ hs⟩

theorem filter_flatMap_none (sc : List (String × List (String × String)))
    (names : String → String) (sid : String) (h : ¬ sid ∈ dkeys sc) :
    ((sc.flatMap fun e => pairConflicts e.1 (names e.1) e.2).filter
        fun c => c.studentId == sid) = [] := by
  induction sc with
  | nil => rfl
  | cons e rest ih =>
      have hcons : dkeys (e :: rest) = e.1 :: dkeys rest := rfl
      have hne : ¬ sid = e.1 := fun hm =>
        h (by rw [hcons, hm]; exact List.mem_cons_self _ _)
      have hrest : ¬ sid ∈ dkeys rest := fun hm =>
        h (by rw [hcons]; exact List.mem_cons_of_mem _ hm)
      simp only [List.flatMap_cons, List.filter_append, ih hrest,
        List.append_nil]
      apply List.filter_eq_nil_iff.mpr
      intro c hc
      have h1 := (pairConflicts_mem _ _ _ _ hc).1
      simp only [h1, beq_iff_eq]
      exact fun hm => hne hm.symm

theorem filter_flatMap_dget (sc : List (String × List (String × String)))
    (names : String → String) (sid : String) (enr : List (String × String))
    (hnd : (dkeys sc).Nodup) (h : dget sc sid = some enr) :
    ((sc.flatMap fun e => pairConflicts e.1 (names e.1) e.2).filter
        fun c => c.studentId == sid) = pairConflicts sid (names sid) enr := by
  induction sc with
  | nil => simp [dget] at h
  | cons e rest ih =>
      obtain ⟨k, vs⟩ := e
      simp only [List.flatMap_cons, List.filter_append]
      by_cases hk : k = sid
      · subst hk
        have hvs : vs = enr := by simpa [dget] using h
        subst hvs
        have hrest : ¬ k ∈ dkeys rest := by
          have := hnd
          simp only [dkeys, List.map_cons, List.nodup_cons] at this
          exact this.1
        rw [filter_flatMap_none rest names k hrest]
        rw [List.filter_eq_self.mpr ?_]
        · simp
        · intro c hc
          have h1 := (pairConflicts_mem _ _ _ _ hc).1
          simp [h1]
      · have h' : dget rest sid = some enr := by simpa [dget, hk] using h
        have hnd' : (dkeys rest).Nodup := by
          have := hnd
          simp only [dkeys, List.map_cons, List.nodup_cons] at this
          exact this.2
        rw [ih hnd' h']
        have hblock : ((pairConflicts k (names k) vs).filter
            fun c => c.studentId == sid) = [] := by
          apply List.filter_eq_nil_iff.mpr
          intro c hc
          have h1 := (pairConflicts_mem _ _ _ _ hc).1
          simp [h1, hk]
        rw [hblock, List.nil_append]

/-- The invariant of the `student_courses` map built by the roster pass:
keys are distinct student ids and every recorded enrollment carries a real
slot assignment. -/
def scInv (offered : List (String × String))
    (acc : List (String × List (String × String)) × List (String × String)) :
    Prop :=
  (dkeys acc.1).Nodup ∧ ∀ e ∈ acc.1, ∀ p ∈ e.2, assignedSlot offered p

theorem scInv_addStudent (offered : List (String × String))
    (course slot : String)
    (acc : List (String × List (String × String)) × List (String × String))
    (st : StudentRec) (hinv : scInv offered acc)
    (hq : assignedSlot offered (course, slot)) :
    scInv offered (addStudent course slot acc st) :=
  ⟨nodup_dkeys_dictAppend _ _ _ hinv.1,
   dictAppend_values _ _ _ _ hinv.2 hq⟩

theorem scInv_fold_students (offered : List (String × String))
    (course slot : String) (students : List StudentRec)
    (acc : List (String × List (String × String)) × List (String × String))
    (hinv : scInv offered acc) (hq : assignedSlot offered (course, slot)) :
    scInv offered (students.foldl (addStudent course slot) acc) := by
  induction students generalizing acc with
  | nil => exact hinv
  | cons st rest ih =>
      exact ih _ (scInv_addStudent offered course slot acc st hinv hq)

theorem scInv_addRoster (offered : List (String × String))
    (acc : List (String × List (String × String)) × List (String × String))
    (entry : String × List StudentRec) (hinv : scInv offered acc) :
    scInv offered (addRoster offered acc entry) := by
  unfold addRoster
  cases hdg : dget offered entry.1 with
  | none => exact hinv
  | some slot =>
      show scInv offered (if slot ≠ "" ∧ slot ≠ "Unassigned" then
        entry.2.foldl (addStudent entry.1 slot) acc else acc)
      by_cases hcond : slot ≠ "" ∧ slot ≠ "Unassigned"
      · rw [if_pos hcond]
        exact scInv_fold_students offered entry.1 slot entry.2 acc hinv
          ⟨hdg, hcond.1, hcond.2⟩
      · rw [if_neg hcond]
        exact hinv

theorem scInv_fold_rosters (offered : List (String × String))
    (rosters : List (String × List StudentRec))
    (acc : List (String × List (String × String)) × List (String × String))
    (hinv : scInv offered acc) :
    scInv offered (rosters.foldl (addRoster offered) acc) := by
  induction rosters generalizing acc with
  | nil => exact hinv
  | cons entry rest ih =>
      exact ih _ (scInv_addRoster offered acc entry hinv)

theorem scInv_build (offered : List (String × String))
    (rosters : List (String × List StudentRec)) :
    scInv offered (buildStudentCourses offered rosters) :=
  scInv_fold_rosters offered rosters ([], []) ⟨List.nodup_nil, by simp⟩

theorem countConflictPairs_le_one (enr : List (String × String))
    (h : enr.length ≤ 1) : countConflictPairs enr = 0 := by
  match enr with
  | [] => rfl
  | [p] => simp [countConflictPairs]
  | p :: q :: rest => simp [List.length_cons] at h

theorem triangle_step (n : Nat) : n + n * (n - 1) / 2 = (n + 1) * n / 2 := by
  cases n with
  | zero => rfl
  | succ m =>
      have hmul : (m + 2) * (m + 1) = (m + 1) * m + (m + 1) * 2 := by ring
      rw [show m + 1 - 1 = m from rfl, hmul,
        Nat.add_mul_div_right _ _ (by norm_num : (0 : Nat) < 2)]
      omega

theorem countConflictPairs_all (enr : List (String × String))
    (h : ∀ p ∈ enr, ∀ q ∈ enr, slots_conflict p.2 q.2 = true) :
    countConflictPairs enr = enr.length * (enr.length - 1) / 2 := by
  induction enr with
  | nil => rfl
  | cons p rest ih =>
      have hf : (rest.filter fun q => slots_conflict p.2 q.2) = rest :=
        List.filter_eq_self.mpr fun q hq =>
          h p (by simp) q (by simp [hq])
      have hr := ih fun a ha b hb => h a (by simp [ha]) b (by simp [hb])
      simp only [countConflictPairs, hf, hr, List.length_cons]
      exact triangle_step rest.length

/-- C2: `check_roster_conflicts` emits one two-course record per unordered
pair of a student's slot-assigned courses whose slots overlap: a student's
record count equals their conflicting-pair count, which is C(N,2) when all
N enrollments pairwise overlap and 0 for at most one enrollment; courses
without a real slot assignment never appear in any record. -/
theorem check_roster_conflicts_pairs (offered : List (String × String))
    (rosters : List (String × List StudentRec)) (sid : String)
    (hoff : offered ≠ []) (hros : rosters ≠ []) :
    (∀ c ∈ check_roster_conflicts offered rosters,
        c.courses.length = 2 ∧
        ∀ code ∈ c.courses, ∃ slot, dget offered code = some slot
          ∧ slot ≠ "" ∧ slot ≠ "Unassigned")
    ∧ (∀ enr, dget (buildStudentCourses offered rosters).1 sid = some enr →
        ((check_roster_conflicts offered rosters).filter
            fun c => c.studentId == sid).length = countConflictPairs enr
        ∧ ((∀ p ∈ enr, ∀ q ∈ enr, slots_conflict p.2 q.2 = true) →
            countConflictPairs enr = enr.length * (enr.length - 1) / 2)
        ∧ (enr.length ≤ 1 → countConflictPairs enr = 0))
    ∧ (dget (buildStudentCourses offered rosters).1 sid = none →
        ((check_roster_conflicts offered rosters).filter
            fun c => c.studentId == sid) = []) := by
  have hinv := scInv_build offered rosters
  have hcr : check_roster_conflicts offered rosters
      = (buildStudentCourses offered rosters).1.flatMap fun e =>
          pairConflicts e.1
            ((dget (buildStudentCourses offered rosters).2 e.1).getD "Unknown")
            e.2 := by
    unfold check_roster_conflicts
    rw [if_neg (by simp [hoff, hros])]
  refine ⟨?_, ?_, ?_⟩
  · intro c hc
    rw [hcr] at hc
    simp only [List.mem_flatMap] at hc
    obtain ⟨e, he, hce⟩ := hc
    obtain ⟨_, hlen, hcodes⟩ := pairConflicts_mem _ _ _ _ hce
    refine ⟨hlen, fun code hcode => ?_⟩
    obtain ⟨s, hs⟩ := hcodes code hcode
    obtain ⟨h1, h2, h3⟩ := hinv.2 e he (code, s) hs
    exact ⟨s, h1, h2, h3⟩
  · intro enr henr
    refine ⟨?_, countConflictPairs_all enr, countConflictPairs_le_one enr⟩
    rw [hcr, filter_flatMap_dget (buildStudentCourses offered rosters).1
      (fun k => (dget (buildStudentCourses offered rosters).2 k).getD "Unknown")
      sid enr hinv.1 henr]
    exact pairConflicts_length _ _ _
  · intro hnone
    rw [hcr]
    exact filter_flatMap_none (buildStudentCourses offered rosters).1
      (fun k => (dget (buildStudentCourses offered rosters).2 k).getD "Unknown")
      sid ((dget_eq_none_iff _ _).mp hnone)

/-- Concrete conflict scenario: two courses in the same slot sharing
student S1. -/
def offW : List (String × String) :=
  [("CS101", "MW_1800"), ("CS102", "MW_1800")]

/-- Rosters for the concrete conflict scenario. -/
def rosW : List (String × List StudentRec) :=
  [("CS101", [{ studentId := "S1", name := "Alice" },
              { studentId := "S2", name := "Bob" }]),
   ("CS102", [{ studentId := "S1", name := "Alice" }])]

/-- S1's built enrollment list in the concrete scenario. -/
def enrW : List (String × String) :=
  [("CS101", "MW_1800"), ("CS102", "MW_1800")]

theorem check_roster_conflicts_pairs_witness :
    ((check_roster_conflicts offW rosW).filter
        fun c => c.studentId == "S1").length = countConflictPairs enrW
    ∧ countConflictPairs enrW = enrW.length * (enrW.length - 1) / 2 := by
  have h := (check_roster_conflicts_pairs offW rosW "S1"
    (by decide) (by decide)).2.1 enrW (by decide)
  exact ⟨h.1, h.2.1 (by decide)⟩

/-! ### C9: `load_prerequisites` structure invariants -/

theorem count_append_single {α : Type} [BEq α] (l : List α) (v x : α) :
    (l ++ [v]).count x = l.count x + if v == x then 1 else 0 := by
  rw [List.count_append, List.count_singleton]

/-- The two views agree as multisets: `(order, course)` occurs in
`chains[cid]` as often as `(cid, order)` occurs in
`course_to_chains[course]`. -/
def viewsConsistent
    (acc : List (String × List (Int × String)) × List (String × List (String × Int))) :
    Prop :=
  ∀ cid course o,
    ((dget acc.1 cid).getD []).count (o, course)
      = ((dget acc.2 course).getD []).count (cid, o)

theorem count_single_ne {α : Type} [BEq α] [LawfulBEq α] (v x : α)
    (h : ¬ v = x) : List.count x [v] = 0 := by
  simp [List.count_singleton, h]

theorem viewsConsistent_append
    (acc : List (String × List (Int × String)) × List (String × List (String × Int)))
    (h : viewsConsistent acc) (cid course : String) (o : Int) :
    viewsConsistent
      (dictAppend acc.1 cid (o, course), dictAppend acc.2 course (cid, o)) := by
  intro cid' course' o'
  dsimp only
  rw [dget_dictAppend, dget_dictAppend]
  by_cases hc : cid' = cid
  · by_cases hco : course' = course
    · rw [if_pos hc, if_pos hco, Option.getD_some, Option.getD_some, hc, hco,
        count_append_single, count_append_single, h cid course o']
      congr 1
      by_cases ho : o = o'
      · subst ho; simp
      · simp [beq_iff_eq, Prod.ext_iff, ho]
    · rw [if_pos hc, if_neg hco, Option.getD_some, hc,
        count_append_single, h cid course' o']
      have hz : ¬ ((o, course) = (o', course')) := by
        simp only [Prod.mk.injEq, not_and]
        exact fun _ hcc => hco hcc.symm
      simp [beq_iff_eq, hz]
  · by_cases hco : course' = course
    · rw [if_neg hc, if_pos hco, Option.getD_some, hco,
        count_append_single, h cid' course o']
      have hz : ¬ ((cid, o) = (cid', o')) := by
        simp only [Prod.mk.injEq, not_and]
        exact fun hcc => absurd hcc.symm hc
      simp [beq_iff_eq, hz]
    · rw [if_neg hc, if_neg hco]
      exact h cid' course' o'

theorem viewsConsistent_processRow
    (acc : List (String × List (Int × String)) × List (String × List (String × Int)))
    (row : CsvRow) (h : viewsConsistent acc) :
    viewsConsistent (processRow acc row) := by
  simp only [processRow]
  by_cases h1 : pyStrip row.chainID = "" ∨ pyStrip row.order = ""
      ∨ pyStrip row.courseCode = ""
  · rwa [if_pos h1]
  · rw [if_neg h1]
    by_cases h2 : pyStrip row.chainID = "nan" ∨ pyStrip row.order = "nan"
        ∨ pyStrip row.courseCode = "nan"
    · rwa [if_pos h2]
    · rw [if_neg h2]
      cases hp : pyInt (pyStrip row.order) with
      | none => exact h
      | some o =>
          exact viewsConsistent_append acc h (pyStrip row.chainID)
            (pyStrip row.courseCode) o

theorem viewsConsistent_foldl (rows : List CsvRow)
    (acc : List (String × List (Int × String)) × List (String × List (String × Int)))
    (h : viewsConsistent acc) :
    viewsConsistent (rows.foldl processRow acc) := by
  induction rows generalizing acc with
  | nil => exact h
  | cons row rest ih => exact ih _ (viewsConsistent_processRow acc row h)

/-- C9: the structure built by `load_prerequisites` keeps every chain
sorted nondecreasing by order (duplicates retained), and the two views are
mutually consistent: `(order, course)` occurs in `chains[chain_id]` exactly
as often as `(chain_id, order)` occurs in `course_to_chains[course]`. -/
theorem load_prerequisites_invariants (rows : List CsvRow) :
    (∀ cid chain, dget (load_prerequisites rows).chains cid = some chain →
        chain.Sorted chainLE)
    ∧ ∀ cid course o,
        ((dget (load_prerequisites rows).chains cid).getD []).count (o, course)
          = ((dget (load_prerequisites rows).course_to_chains course).getD
              []).count (cid, o) := by
  have hbase : viewsConsistent ([], []) := fun cid course o => rfl
  have hcons := viewsConsistent_foldl rows ([], []) hbase
  constructor
  · intro cid chain hc
    unfold load_prerequisites at hc
    rw [dget_map_snd] at hc
    cases hd : dget (rows.foldl processRow ([], [])).1 cid with
    | none => rw [hd] at hc; simp at hc
    | some v =>
        rw [hd] at hc
        have hc2 : some (List.insertionSort chainLE v) = some chain := hc
        cases hc2
        exact List.sorted_insertionSort chainLE v
  · intro cid course o
    have hmain := hcons cid course o
    unfold load_prerequisites
    dsimp only
    rw [dget_map_snd]
    cases hd : dget (rows.foldl processRow ([], [])).1 cid with
    | none =>
        rw [hd] at hmain
        simpa using hmain
    | some v =>
        rw [hd] at hmain
        calc List.count (o, course)
              ((Option.map (fun l => List.insertionSort chainLE l)
                (some v)).getD [])
            = List.count (o, course) (List.insertionSort chainLE v) := rfl
          _ = List.count (o, course) v :=
              List.Perm.countP_eq _ (List.perm_insertionSort chainLE v)
          _ = _ := by simpa using hmain

/-- A concrete CSV row list for the C9 witness. -/
def rowsW : List CsvRow :=
  [{ chainID := "a", order := "2", courseCode := "ACCT-312" },
   { chainID := "a", order := "1", courseCode := "ACCT-310" },
   { chainID := " ", order := "x", courseCode := "junk" }]

theorem load_prerequisites_invariants_witness :
    ([((1 : Int), "ACCT-310"), (2, "ACCT-312")] :
        List (Int × String)).Sorted chainLE
    ∧ ((dget (load_prerequisites rowsW).chains "a").getD []).count
        ((1 : Int), "ACCT-310")
      = ((dget (load_prerequisites rowsW).course_to_chains "ACCT-310").getD
          []).count ("a", (1 : Int)) :=
  ⟨(load_prerequisites_invariants rowsW).1 "a"
      [((1 : Int), "ACCT-310"), (2, "ACCT-312")] (by decide),
   (load_prerequisites_invariants rowsW).2 "a" "ACCT-310" 1⟩

end Vonbot
